import Mathlib

/-!
Shallow embedding of the string engine in `src/include/better-string.hh`
(`ext::` namespace: codecs, codepoint iterators, the generic string
algorithms and the format mini-language), together with proofs about the
claims C1-C10.

Conventions of the embedding:
* A unit sequence (`better_string` / `better_string_view` contents) is a
  `List Nat` of code-unit values.
* `size_t` values are `Nat`; `npos` / `size_t(-1)` is `2 ^ 64 - 1`.
* Codepoints (`int32_t`) are `Int`; the negative-sentinel convention of the
  source is kept as is.
* Reads through `ptr[k]` that C++ can legally serve from the string storage
  (positions `0 ..= n`; position `n` is the null terminator of
  `std::basic_string`) are modelled by `byteAt`, which returns `0` past the
  end.  Loops whose claims are about staying in bounds (`rsplit`) instead use
  checked reads (`readAtI`) that produce the error `Err.oob` on an
  out-of-bounds access.
* A C++ loop that can fail to make progress (the UTF-8 `operator++` does not
  move past a malformed head byte) would run forever; the embedding detects
  the missing progress and returns `Err.stuck`.  Every loop carries a fuel
  argument that is at least the maximal number of iterations (each iteration
  advances the scan position by at least one unit), so exhausting the fuel is
  unreachable; it also maps to `Err.stuck`.
* `throw std::invalid_argument / std::out_of_range / std::logic_error`
  become `Err.invalidArg`, `Err.outOfRange`, `Err.logicErr`.
-/

namespace Better

/-- Failure modes of the embedded code: C++ exceptions, plus the two
undefined behaviours that the embedding makes explicit (an out-of-bounds
read, and a loop that stops making progress and hence never terminates). -/
inductive Err where
  | stuck
  | oob
  | invalidArg (msg : String)
  | outOfRange (msg : String)
  | logicErr (msg : String)
deriving DecidableEq

/-- `ext::impl::Errors` - the error-policy enumeration. -/
inductive Errors where
  | Strict
  | Ignore
  | Replace
deriving DecidableEq

/-- `size_t(-1)`, used as `npos`, as unbounded `maxsplit`, and as the
manual-indexing sentinel of `format1`. -/
def npos : Nat := 2 ^ 64 - 1

/-- Read the unit at position `p`.  `std::basic_string` storage: positions
`0 ..= n` are readable and position `n` holds the null terminator `0`;
`getD` returns `0` there, matching the storage. -/
def byteAt (s : List Nat) (p : Nat) : Nat := s.getD p 0

/-- Checked read at a (possibly negative) position: exactly the units inside
the view are readable, anything else is an out-of-bounds access. -/
def readAtI (s : List Nat) (i : Int) : Except Err Nat :=
  if 0 ≤ i ∧ i < (s.length : Int) then .ok (s.getD i.toNat 0) else .error .oob

/-- The view `[a, b)` of `s` (`better_string_view(ptr + a, ptr + b)`). -/
def sliceN (s : List Nat) (a b : Nat) : List Nat := (s.drop a).take (b - a)

/-- Whitespace test used by `split` / `rsplit` (whitespace form):
`*ptr == ' ' || (*ptr >= 0x9 && *ptr <= 0xD)`. -/
def isWsUnit (b : Nat) : Bool := b == 32 || (9 ≤ b && b ≤ 13)

/-- `is_align` from `impl::Specifier`: one of `< > = ^`. -/
def isAlign (b : Nat) : Bool := b == 60 || b == 62 || b == 61 || b == 94

/-- `is_sign` from `impl::Specifier`: one of `+ - space`. -/
def isSign (b : Nat) : Bool := b == 43 || b == 45 || b == 32

/-- `is_digit`: `'0' <= ch && ch <= '9'`. -/
def isDigit (b : Nat) : Bool := 48 ≤ b && b ≤ 57

/-- `is_alpha`: ASCII letter. -/
def isAlpha (b : Nat) : Bool := (65 ≤ b && b ≤ 90) || (97 ≤ b && b ≤ 122)

/-- `is_conv` from `format1`: one of `a r s`. -/
def isConv (b : Nat) : Bool := b == 97 || b == 114 || b == 115

/-- `uint32_t` conversion of an `int32_t` value (`uint32_t ch = *iter;`). -/
def toUInt32n (i : Int) : Nat := (i % (2 ^ 32 : Int)).toNat

/-! ### UTF8Iterator -/

/-- `UTF8Iterator::ascii`: `ch < 0x80`. -/
def utf8Ascii (b : Nat) : Bool := b < 0x80

/-- `UTF8Iterator::head`: `ch > 0xC0`. -/
def utf8IsHead (b : Nat) : Bool := 0xC0 < b

/-- `UTF8Iterator::head2`: `ch < 0xE0`. -/
def utf8IsHead2 (b : Nat) : Bool := b < 0xE0

/-- `UTF8Iterator::head3`: `ch < 0xF0`. -/
def utf8IsHead3 (b : Nat) : Bool := b < 0xF0

/-- `UTF8Iterator::head4`: `ch < 0xF8`. -/
def utf8IsHead4 (b : Nat) : Bool := b < 0xF8

/-- `UTF8Iterator::tail`: `(ch & 0xC0) == 0x80`. -/
def utf8IsTail (b : Nat) : Bool := b &&& 0xC0 == 0x80

/-- `UTF8Iterator::operator++`.  Note that when the lead byte announces a
multi-unit sequence whose continuation bytes are not all tails, the source
leaves `ptr` unchanged (there is no `else` advancing it): the position does
not move. -/
def utf8Next (s : List Nat) (p : Nat) : Nat :=
  let ch := byteAt s p
  if ¬ utf8IsHead ch then p + 1
  else if utf8IsHead2 ch then
    (if utf8IsTail (byteAt s (p + 1)) then p + 2 else p)
  else if utf8IsHead3 ch then
    (if utf8IsTail (byteAt s (p + 1)) && utf8IsTail (byteAt s (p + 2)) then p + 3 else p)
  else if utf8IsHead4 ch then
    (if utf8IsTail (byteAt s (p + 1)) && utf8IsTail (byteAt s (p + 2))
        && utf8IsTail (byteAt s (p + 3)) then p + 4 else p)
  else p + 1

/-- `UTF8Iterator::operator*`: decode the codepoint at `p`, or a negative
error value. -/
def utf8DerefAt (s : List Nat) (p : Nat) : Int :=
  let ch := byteAt s p
  if utf8Ascii ch then (ch : Int)
  else if ¬ utf8IsHead ch then -(ch : Int)
  else if utf8IsHead2 ch then
    if ¬ utf8IsTail (byteAt s (p + 1)) then -(ch : Int)
    else
      let cp := ((ch &&& 0x1F) <<< 6) ||| (byteAt s (p + 1) &&& 0x3F)
      if cp < 0x80 then -1 else (cp : Int)
  else if utf8IsHead3 ch then
    if ¬ utf8IsTail (byteAt s (p + 1)) && ¬ utf8IsTail (byteAt s (p + 2)) then -(ch : Int)
    else
      let cp := ((ch &&& 0x0F) <<< 12) ||| ((byteAt s (p + 1) &&& 0x3F) <<< 6)
                  ||| (byteAt s (p + 2) &&& 0x3F)
      if cp < 0x800 ∨ (cp &&& 0xF800) = 0xD800 then -1 else (cp : Int)
  else if utf8IsHead4 ch then
    if ¬ utf8IsTail (byteAt s (p + 1)) && ¬ utf8IsTail (byteAt s (p + 2))
        && ¬ utf8IsTail (byteAt s (p + 3)) then -(ch : Int)
    else
      let cp := ((ch &&& 0x07) <<< 18) ||| ((byteAt s (p + 1) &&& 0x3F) <<< 12)
                  ||| ((byteAt s (p + 2) &&& 0x3F) <<< 6) ||| (byteAt s (p + 3) &&& 0x3F)
      if cp < 0x10000 ∨ 0x10FFFF < cp then -1 else (cp : Int)
  else -(ch : Int)

/-- `UTF8Iterator::operator--`, with every `ptr[-k]` read checked (used by
the reverse scans).  The `head4` test of the source reads `ptr[-3]` (not
`ptr[-4]`) before stepping back 4 units; the translation keeps that.  A step
of 4 from position 3 puts the C++ pointer one unit before the buffer; the
next loop comparison `done.ptr < iter.ptr` is false there exactly as the
clamped `Nat` position 0 makes `0 < iter` false, so clamping is faithful. -/
def utf8PrevChecked (s : List Nat) (p : Nat) : Except Err Nat := do
  let b1 ← readAtI s ((p : Int) - 1)
  if utf8IsTail b1 then do
    let b2 ← readAtI s ((p : Int) - 2)
    if utf8IsHead2 b2 && utf8IsHead b2 then pure (p - 2)
    else if utf8IsTail b2 then do
      let b3 ← readAtI s ((p : Int) - 3)
      if utf8IsHead3 b3 && ¬ utf8IsHead2 b3 then pure (p - 3)
      else if utf8IsTail b3 then
        if utf8IsHead4 b3 && ¬ utf8IsHead3 b3 then pure (p - 4) else pure (p - 1)
      else pure (p - 1)
    else pure (p - 1)
  else pure (p - 1)

/-! ### UTF16Iterator and UTF32Iterator dereference -/

/-- `UTF16Iterator::is_surrogate_first`: `(ch & 0xFC00) == 0xD800`. -/
def utf16SurrFirst (u : Nat) : Bool := u &&& 0xFC00 == 0xD800

/-- `UTF16Iterator::is_surrogate_last`: `(ch & 0xFC00) == 0xDC00`. -/
def utf16SurrLast (u : Nat) : Bool := u &&& 0xFC00 == 0xDC00

/-- `UTF16Iterator::operator*`: a properly paired surrogate is combined;
anything else - including an unpaired surrogate half - is returned as is. -/
def utf16Deref (s : List Nat) (p : Nat) : Int :=
  if utf16SurrFirst (byteAt s p) && utf16SurrLast (byteAt s (p + 1)) then
    ((((byteAt s p &&& 0x3FF) <<< 10) + (byteAt s (p + 1) &&& 0x3FF) + 0x10000 : Nat) : Int)
  else (byteAt s p : Int)

/-- `UTF32Iterator::operator*`: the source writes
`(*ptr & 0xF800 != 0xD8) && (*ptr < 0x110000) ? *ptr : -1`, and in C++ `!=`
binds tighter than `&`, so the first conjunct is `*ptr & (0xF800 != 0xD8)`,
i.e. `*ptr & 1`. -/
def utf32Deref (s : List Nat) (p : Nat) : Int :=
  let u := byteAt s p
  if (u &&& (if (0xF800 : Nat) ≠ 0xD8 then 1 else 0)) ≠ 0 ∧ u < 0x110000
  then (u : Int) else -1

/-! ### Encoders (`encoding_traits<E>::append`) -/

/-- `UTF8Encoder::append` (`encoding_traits<UTF8>::append`): returns the
`bool` result and the extended string.  The surrogate guard of the source is
`cp & 0xF800 == 0xD8`, which by C++ precedence is `cp & (0xF800 == 0xD8)`,
i.e. `cp & 0`: it never fires. -/
def utf8Append (st : List Nat) (cp : Nat) : Bool × List Nat :=
  if cp < 0x80 then (true, st ++ [cp])
  else if cp < 0x800 then
    (true, st ++ [0xC0 ||| (cp >>> 6), 0x80 ||| (cp &&& 0x3F)])
  else if cp < 0x10000 then
    if (cp &&& (if (0xF800 : Nat) = 0xD8 then 1 else 0)) ≠ 0 then (false, st)
    else (true, st ++ [0xE0 ||| (cp >>> 12), 0x80 ||| ((cp >>> 6) &&& 0x3F),
                        0x80 ||| (cp &&& 0x3F)])
  else if cp < 0x110000 then
    (true, st ++ [0xF0 ||| (cp >>> 18), 0x80 ||| ((cp >>> 12) &&& 0x3F),
                   0x80 ||| ((cp >>> 6) &&& 0x3F), 0x80 ||| (cp &&& 0x3F)])
  else (false, st)

/-- `UTF16Encoder::append` writing into an 8-bit `better_string<char>`
buffer (the situation of the transcode path under scrutiny): each pushed
`char16_t` is narrowed to the 8-bit unit type, hence the `% 256`.  The
surrogate guard has the same dead-precedence form as in `UTF8Encoder`, and
the supplementary branch subtracts decimal `10000` exactly as the source
does. -/
def utf16AppendN (st : List Nat) (cp : Nat) : Bool × List Nat :=
  if cp < 0x10000 then
    if (cp &&& (if (0xF800 : Nat) = 0xD8 then 1 else 0)) ≠ 0 then (false, st)
    else (true, st ++ [cp % 256])
  else if cp < 0x110000 then
    let cp2 := cp - 10000
    (true, st ++ [(0xD800 ||| (cp2 >>> 10)) % 256, (0xDC00 ||| (cp2 &&& 0x3FF)) % 256])
  else (false, st)

/-! ### Codepoint counting (`UTF8Iterator::operator-`, `length<E>()`) -/

/-- The loop of `UTF8Iterator::operator-`: count `operator++` steps from `p`
up to `q` (`while (right.ptr < left.ptr) { ++len; ++right; }`). -/
def utf8DistLoop (fuel : Nat) (s : List Nat) (p q : Nat) : Except Err Nat :=
  match fuel with
  | 0 => .error .stuck
  | fuel + 1 =>
    if p < q then
      let p' := utf8Next s p
      if p' ≤ p then .error .stuck
      else (utf8DistLoop fuel s p' q).map (· + 1)
    else .ok 0

/-- `better_string::length<UTF8>()`: the codepoint count of the whole
string, `iter(data + size) - iter(data)`. -/
def utf8Length (s : List Nat) : Except Err Nat :=
  utf8DistLoop (s.length + 1) s 0 s.length

/-! ### Alignment algorithms (`algorithm::string::center / ljust / rjust`)
over the UTF-8 encoding (the default encoding of `better_string<char>`).
The source allocates `R result(self.size() + fillchar.size() * diff, 0)` and
overwrites it completely with the pad copies and `self`; the embedding
builds the same value by concatenation. -/

/-- `algorithm::string::center<.., UTF8>`. -/
def utf8Center (s : List Nat) (width : Nat) (fill : List Nat) : Except Err (List Nat) :=
  match utf8Length fill with
  | .error e => .error e
  | .ok flen =>
    if flen ≠ 1 then .error (.invalidArg "center(): fillchar")
    else match utf8Length s with
      | .error e => .error e
      | .ok slen =>
        if width < slen then .ok s
        else
          let diff := width - slen
          let l := diff / 2
          let r := diff - l
          .ok ((List.replicate l fill).flatten ++ s ++ (List.replicate r fill).flatten)

/-- `algorithm::string::ljust<.., UTF8>`. -/
def utf8Ljust (s : List Nat) (width : Nat) (fill : List Nat) : Except Err (List Nat) :=
  match utf8Length fill with
  | .error e => .error e
  | .ok flen =>
    if flen ≠ 1 then .error (.invalidArg "ljust(): fillchar")
    else match utf8Length s with
      | .error e => .error e
      | .ok slen =>
        if width < slen then .ok s
        else .ok (s ++ (List.replicate (width - slen) fill).flatten)

/-- `algorithm::string::rjust<.., UTF8>`. -/
def utf8Rjust (s : List Nat) (width : Nat) (fill : List Nat) : Except Err (List Nat) :=
  match utf8Length fill with
  | .error e => .error e
  | .ok flen =>
    if flen ≠ 1 then .error (.invalidArg "rjust(): fillchar")
    else match utf8Length s with
      | .error e => .error e
      | .ok slen =>
        if width < slen then .ok s
        else .ok ((List.replicate (width - slen) fill).flatten ++ s)

/-! ### Truncation (`algorithm::string::truncate`, UTF-8) -/

/-- The loop of `truncate`: stop after `width` codepoints; note that
`iter != done` for `UTF8Iterator` is `iter.ptr < done.ptr`. -/
def utf8TruncLoop (fuel : Nat) (s : List Nat) (width p size : Nat) : Except Err (List Nat) :=
  match fuel with
  | 0 => .error .stuck
  | fuel + 1 =>
    if p < s.length then
      if size = width then .ok (s.take p)
      else
        let p' := utf8Next s p
        if p' ≤ p then .error .stuck
        else utf8TruncLoop fuel s width p' (size + 1)
    else .ok s

/-- `algorithm::string::truncate<.., UTF8>`. -/
def utf8Truncate (s : List Nat) (width : Nat) : Except Err (List Nat) :=
  utf8TruncLoop (s.length + 1) s width 0 0

/-! ### Search (`algorithm::string::find`, UTF-8) -/

/-- The match loop of `find`.  `done` is the pointer
`data + end - sub.size() + 1`, kept as an `Int` offset because the size_t
arithmetic can go below `data`; `iter != done` for `UTF8Iterator` is `<`. -/
def utf8FindLoop (fuel : Nat) (s sub : List Nat) (i : Nat) (done : Int) : Except Err Nat :=
  match fuel with
  | 0 => .error .stuck
  | fuel + 1 =>
    if (i : Int) < done then
      if (s.drop i).take sub.length = sub then .ok i
      else
        let i' := utf8Next s i
        if i' ≤ i then .error .stuck
        else utf8FindLoop fuel s sub i' done
    else .ok npos

/-- `algorithm::string::find<.., UTF8>`.  When `self.size() < sub.size()`
the source returns `0` before anything else. -/
def utf8Find (s sub : List Nat) (start endp : Nat) : Except Err Nat :=
  if s.length < sub.length then .ok 0
  else
    let e := min endp s.length
    utf8FindLoop (s.length + 2) s sub start ((e : Int) - sub.length + 1)

/-! ### Split and join (`algorithm::string::split` (separator form) and
`join`, UTF-8) -/

/-- The scan loop of `split(sep, maxsplit)`.  On a match the scan jumps to
`ptr + sep.size()`, which can land past `done`; `iter != done` for
`UTF8Iterator` is `<`, so the loop still terminates there. -/
def utf8SplitSepLoop (fuel : Nat) (s sep : List Nat) (ms i prev : Nat) :
    Except Err (List (List Nat)) :=
  match fuel with
  | 0 => .error .stuck
  | fuel + 1 =>
    if ms ≠ 0 ∧ i < s.length - sep.length + 1 then
      if (s.drop i).take sep.length = sep then
        (utf8SplitSepLoop fuel s sep (ms - 1) (i + sep.length) (i + sep.length)).map
          (fun rest => sliceN s prev i :: rest)
      else
        let i' := utf8Next s i
        if i' ≤ i then .error .stuck
        else utf8SplitSepLoop fuel s sep ms i' prev
    else .ok [sliceN s prev s.length]

/-- `algorithm::string::split<.., UTF8>` (separator form): empty separators
are rejected, and `maxsplit` is forced to `0` when the string is shorter
than the separator. -/
def utf8SplitSep (s sep : List Nat) (maxsplit : Nat) : Except Err (List (List Nat)) :=
  if sep.length = 0 then .error (.invalidArg "split(): sep")
  else
    utf8SplitSepLoop (s.length + 1) s sep
      (if s.length < sep.length then 0 else maxsplit) 0 0

/-- `algorithm::string::join` (container overload): copy the items with the
separator between consecutive ones. -/
def joinSep (sep : List Nat) : List (List Nat) → List Nat
  | [] => []
  | [x] => x
  | x :: xs => x ++ sep ++ joinSep sep xs

/-! ### rsplit, whitespace form (`algorithm::string::rsplit`, UTF-8).
All reads of this reverse scan are checked: the claim under scrutiny is
about reads staying inside the view. -/

/-- The inner run-skipping loop
`while (*ptr == ' ' || (*ptr >= 0x9 && *ptr <= 0xD)) -- ptr;`:
when the whitespace run starts at position 0 the next read is at index `-1`,
outside the view. -/
def skipWsBack (fuel : Nat) (s : List Nat) (p : Nat) : Except Err Nat :=
  match fuel with
  | 0 => .error .stuck
  | fuel + 1 => do
    let b ← readAtI s (p : Int)
    if isWsUnit b then
      if p = 0 then .error .oob else skipWsBack fuel s (p - 1)
    else .ok p

/-- The scan loop of `rsplit(maxsplit)` (whitespace form): `iter` walks
backward (`done != iter` for `UTF8Iterator` is `done.ptr < iter.ptr`, with
`done = iter(data)`, i.e. `0 < iter`); `ptr = iter - 1` is examined, a
whitespace run is skipped backward, and the pieces are collected
right-to-left. -/
def rsplitWsLoop (fuel : Nat) (s : List Nat) (ms iter prev : Nat)
    (acc : List (List Nat)) : Except Err (List (List Nat)) :=
  match fuel with
  | 0 => .error .stuck
  | fuel + 1 =>
    if ms ≠ 0 ∧ 0 < iter then do
      let p := iter - 1
      let b ← readAtI s (p : Int)
      if isWsUnit b then do
        let acc := acc ++ [sliceN s (p + 1) prev]
        let p' ← skipWsBack (p + 1) s p
        rsplitWsLoop fuel s (ms - 1) p' (p' + 1) acc
      else do
        let iter' ← utf8PrevChecked s iter
        rsplitWsLoop fuel s ms iter' prev acc
    else .ok (acc ++ [sliceN s 0 prev])

/-- `algorithm::string::rsplit<.., UTF8>` (whitespace form); the final
swap loop reverses the accumulated pieces. -/
def utf8RsplitWs (s : List Nat) (maxsplit : Nat) : Except Err (List (List Nat)) :=
  (rsplitWsLoop (s.length + 1) s maxsplit s.length s.length []).map List.reverse

/-! ### Translation tables (`impl::Translation`) -/

/-- A node of the translation table (`Translation::Node`). -/
structure TransNode where
  key : Int
  value : Int
deriving DecidableEq

/-- `std::vector::operator[] = v` on an index that is not below `size()`
is undefined behaviour and does not grow the vector; under the
defined-behaviour reading the vector contents are unchanged. -/
def vecSet (l : List TransNode) (i : Nat) (v : TransNode) : List TransNode :=
  if i < l.length then l.set i v else l

/-- The `Translation` constructor: `data.reserve(n + m)` does not change the
vector size (it stays `0`), after which every `data[i] = Node(..)` write is
out of bounds and leaves the vector empty. -/
def translationData (x y z : List Int) : List TransNode :=
  let d : List TransNode := []
  let d := (List.range x.length).foldl (fun d i => vecSet d i ⟨x.getD i 0, y.getD i 0⟩) d
  (List.range z.length).foldl (fun d i => vecSet d (x.length + i) ⟨z.getD i 0, -1⟩) d

/-- `Translation::operator()`: scan the table, return the mapped value of
the first node whose key matches, otherwise the input unchanged. -/
def translationApply : List TransNode → Int → Int
  | [], inp => inp
  | nd :: rest, inp => if nd.key = inp then nd.value else translationApply rest inp

/-! ### Transcoding (`algorithm::string::transcode`, `From != To` overload,
instantiated at `From = UTF8`, `To = UTF16`).  The body appends every
converted unit to `input` via `encoding_traits<To>::append(input, ..)` and
never touches `output`; the iterators are fixed at the original size, while
reads and appends use the live buffer. -/

/-- The conversion loop of `transcode` (`From = UTF8`, `To = UTF16`):
`n` is the frozen original `input.size()`. -/
def transcodeNeLoop (fuel n : Nat) (inp : List Nat) (p : Nat) (mode : Errors) :
    Except Err (List Nat) :=
  match fuel with
  | 0 => .error .stuck
  | fuel + 1 =>
    if p < n then
      let cp := utf8DerefAt inp p
      let step : Except Err (List Nat) :=
        match mode with
        | .Strict =>
          if cp < 0 then .error (.invalidArg "transcode(): input: Decoding error!")
          else
            let (ok, inp') := utf16AppendN inp (toUInt32n cp)
            if ok then .ok inp'
            else .error (.invalidArg "transcode(): input: Encoding error!")
        | .Replace =>
          if cp < 0 then .ok (utf16AppendN inp 0xFFFD).2
          else
            let (ok, inp') := utf16AppendN inp (toUInt32n cp)
            if ok then .ok inp' else .ok (utf16AppendN inp' 0xFFFD).2
        | .Ignore =>
          .ok (if 0 < cp then (utf16AppendN inp (toUInt32n cp)).2 else inp)
      match step with
      | .error e => .error e
      | .ok inp' =>
        let p' := utf8Next inp' p
        if p' ≤ p then .error .stuck
        else transcodeNeLoop fuel n inp' p' mode
    else .ok inp

/-- `algorithm::string::transcode<.., From = UTF8, .., To = UTF16>`: the
result is the final `(input, output)` pair; `output` is never written. -/
def transcodeUTF8toUTF16 (input output : List Nat) (mode : Errors) :
    Except Err (List Nat × List Nat) :=
  (transcodeNeLoop (input.length + 1) input.length input 0 mode).map
    (fun inp' => (inp', output))

/-! ### Quoting (`algorithm::string::quote`, `From = To = UTF8`,
`Ascii = false` - the `repr` path of `char` strings). -/

/-- Lower-case hex digit table `"0123456789abcdef"` of `quote`. -/
def hexDigitL (d : Nat) : Nat := if d < 10 then 48 + d else 87 + d

/-- The per-codepoint emission of the `quote` loop body appended to the
accumulated result.  The `case '\0'` arm pushes `\` `0` and then falls
through into the `case '\a'` arm (the source has no `continue` between
them), so a null character emits all four units `\` `0` `\` `a`. -/
def quoteEmit (acc : List Nat) (ch : Nat) : List Nat :=
  if ch = 39 ∨ ch = 34 ∨ ch = 92 then acc ++ [92, ch]
  else if ch = 0 then acc ++ [92, 48, 92, 97]
  else if ch = 7 then acc ++ [92, 97]
  else if ch = 8 then acc ++ [92, 98]
  else if ch = 12 then acc ++ [92, 102]
  else if ch = 10 then acc ++ [92, 110]
  else if ch = 13 then acc ++ [92, 114]
  else if ch = 9 then acc ++ [92, 116]
  else if ch = 11 then acc ++ [92, 118]
  else if ch < 0x20 then
    if ch < 0x10000 then
      acc ++ [92, 117, hexDigitL ((ch >>> 12) &&& 0xF), hexDigitL ((ch >>> 8) &&& 0xF),
              hexDigitL ((ch >>> 4) &&& 0xF), hexDigitL (ch &&& 0xF)]
    else if ch < 0x110000 then
      acc ++ [92, 85, hexDigitL ((ch >>> 28) &&& 0xF), hexDigitL ((ch >>> 24) &&& 0xF),
              hexDigitL ((ch >>> 20) &&& 0xF), hexDigitL ((ch >>> 16) &&& 0xF),
              hexDigitL ((ch >>> 12) &&& 0xF), hexDigitL ((ch >>> 8) &&& 0xF),
              hexDigitL ((ch >>> 4) &&& 0xF), hexDigitL (ch &&& 0xF)]
    else (utf8Append acc 0xFFFD).2
  else
    let (ok, acc') := utf8Append acc ch
    if ok then acc' else (utf8Append acc' 0xFFFD).2

/-- The scan loop of `quote` (`iter != done` for `UTF8Iterator` is `<`). -/
def quoteLoop (fuel : Nat) (s : List Nat) (p : Nat) (acc : List Nat) :
    Except Err (List Nat) :=
  match fuel with
  | 0 => .error .stuck
  | fuel + 1 =>
    if p < s.length then
      let ch := toUInt32n (utf8DerefAt s p)
      let acc := quoteEmit acc ch
      let p' := utf8Next s p
      if p' ≤ p then .error .stuck
      else quoteLoop fuel s p' acc
    else .ok acc

/-- `algorithm::string::quote<.., UTF8, UTF8, .., false>`: a `"` before the
loop and a `"` after it. -/
def utf8Quote (s : List Nat) : Except Err (List Nat) :=
  (quoteLoop (s.length + 1) s 0 [34]).map (· ++ [34])

/-! ### Format specifier (`impl::Specifier`, `Char = char`, `E = UTF8`) -/

/-- The parsed specifier (`impl::Specifier` fields, with `char` fields as
unit values and the two views as unit lists). -/
structure Specifier where
  type : Nat := 0
  sign : Nat := 0
  align : Nat := 0
  alter : Bool := false
  comma : Bool := false
  width : Nat := npos
  precision : Nat := npos
  fill : List Nat := []
  other : List Nat := []
deriving DecidableEq

/-- A digit-accumulation loop
`for (++iter; iter < end && is_digit(*iter); ++iter) acc = acc*10 + *iter - '0';`
(used for the width, the precision, and the field index). -/
def scanDigits (fuel : Nat) (s : List Nat) (i acc : Nat) : Nat × Nat :=
  match fuel with
  | 0 => (acc, i)
  | fuel + 1 =>
    if i < s.length ∧ isDigit (byteAt s i) then
      scanDigits fuel s (i + 1) (acc * 10 + (byteAt s i - 48))
    else (acc, i)

/-- The `impl::Specifier` constructor: parse
`[[fill]align][sign][#][0][width][,][.precision][type]`.  The fill+align
lookahead advances one codepoint with the UTF-8 iterator; all later
stepping is by single units (`iter` is a raw `const Char *`).  When no type
character is present the constructor returns early and `other` stays
empty. -/
def specParse (sp : List Nat) : Specifier :=
  if sp.length = 0 then {} else
  let n := sp.length
  let second := utf8Next sp 0
  let fai : List Nat × Nat × Nat :=
    if second < n ∧ isAlign (byteAt sp second) then (sp.take second, byteAt sp second, second + 1)
    else if 0 < n ∧ isAlign (byteAt sp 0) then ([], byteAt sp 0, 1)
    else ([], 0, 0)
  let fill := fai.1
  let align := fai.2.1
  let i := fai.2.2
  let si : Nat × Nat := if i < n ∧ isSign (byteAt sp i) then (byteAt sp i, i + 1) else (0, i)
  let sign := si.1
  let i := si.2
  let ai : Bool × Nat := if i < n ∧ byteAt sp i = 35 then (true, i + 1) else (false, i)
  let alter := ai.1
  let i := ai.2
  let zi : Nat × List Nat × Nat :=
    if i < n ∧ byteAt sp i = 48 then
      (if align = 0 then 61 else align, if fill = [] then [48] else fill, i + 1)
    else (align, fill, i)
  let align := zi.1
  let fill := zi.2.1
  let i := zi.2.2
  let wi : Nat × Nat :=
    if i < n ∧ isDigit (byteAt sp i) then scanDigits (n + 1) sp (i + 1) (byteAt sp i - 48)
    else (npos, i)
  let width := wi.1
  let i := wi.2
  let ci : Bool × Nat := if i < n ∧ byteAt sp i = 44 then (true, i + 1) else (false, i)
  let comma := ci.1
  let i := ci.2
  let pi : Nat × Nat :=
    if i < n ∧ byteAt sp i = 46 then scanDigits (n + 1) sp (i + 1) 0 else (npos, i)
  let precision := pi.1
  let i := pi.2
  if i < n ∧ isAlpha (byteAt sp i) then
    let ty := byteAt sp i
    let i := i + 1
    { type := ty, sign := sign, align := align, alter := alter, comma := comma,
      width := width, precision := precision, fill := fill,
      other := if i < n then sliceN sp i n else [] }
  else
    { type := 0, sign := sign, align := align, alter := alter, comma := comma,
      width := width, precision := precision, fill := fill, other := [] }

/-! ### Integer rendering (`format_proxy<int64_t>`) -/

/-- The digit-producing do-while loop
`do { number.push_back(digits[n % base]); n /= base; } while (n > 0);`,
least-significant digit first.  The fuel `n + 1` of the wrapper exceeds the
digit count for every base the switch can produce (2, 8, 10, 16). -/
def natDigitsGo (fuel base n : Nat) : List Nat :=
  match fuel with
  | 0 => []
  | fuel + 1 =>
    let d := n % base
    if 0 < n / base then d :: natDigitsGo fuel base (n / base) else [d]

/-- Digit values of `n` in the given base, least significant first. -/
def natDigitsLSB (base n : Nat) : List Nat := natDigitsGo (n + 1) base n

/-- Digit character for `format_proxy<int64_t>::format__`:
`"0123456789ABCDEF"` when the type is `X`, `"0123456789abcdef"`
otherwise. -/
def intDigitChar (ty d : Nat) : Nat :=
  if d < 10 then 48 + d else if ty = 88 then 55 + d else 87 + d

/-- `format_proxy<int64_t>::type::str__`: decimal rendering with a leading
`-` for negative values (digits pushed least-significant first, a sign
pushed last, then the whole buffer reversed into the result). -/
def intStr (v : Int) : List Nat :=
  (((natDigitsLSB 10 v.natAbs).map (fun d => 48 + d)) ++ (if v < 0 then [45] else [])).reverse

/-! ### String rendering (`better_string_view::format__`, `Char = char`,
`E = UTF8`: the string to format already is in the output encoding, so the
initial `transcode<UTF8, UTF8>(Replace)` is the same-encoding overload,
a plain copy). -/

/-- `better_string_view<char>::format__<char, UTF8>`. -/
def strFormat (s : List Nat) (spec : Specifier) : Except Err (List Nat) :=
  let result := s
  if spec.type ≠ 0 ∧ spec.type ≠ 115 then
    .error (.invalidArg "string::format__(): spec: Invalid format code!")
  else if spec.sign ≠ 0 then
    .error (.invalidArg "string::format__(): spec: Sign is not allowed!")
  else if spec.align = 61 then
    .error (.invalidArg "string::format__(): spec: Numeric alignment (=) is not allowed!")
  else if spec.alter then
    .error (.invalidArg "string::format__(): spec: Alternate form (#) is not allowed!")
  else if spec.comma then
    .error (.invalidArg "string::format__(): spec: Comma separator (,) is not allowed!")
  else if spec.other ≠ [] then
    .error (.invalidArg "string::format__(): spec: Invalid format specification!")
  else
    match (if spec.precision ≠ npos then utf8Truncate result spec.precision
           else .ok result) with
    | .error e => .error e
    | .ok result =>
      if spec.width ≠ npos then
        let align := if spec.align = 0 then 60 else spec.align
        let fill := if spec.fill = [] then [32] else spec.fill
        if align = 60 then utf8Ljust result spec.width fill
        else if align = 62 then utf8Rjust result spec.width fill
        else if align = 94 then utf8Center result spec.width fill
        else .error (.invalidArg "string::format__(): spec: Invalid alignment!")
      else .ok result

/-- `format_proxy<int64_t>::type::format__<char, UTF8>`.  Three remarks on
the translation: the `c` branch encodes the value and renders it as a
string; the float types delegate to `format_proxy<double>::format__`, which
only throws `std::logic_error("Not implemented!")`; and in the final
alignment chain the `else` arm merely constructs `std::invalid_argument`
without throwing it, so that arm returns the unjustified result. -/
def intFormat (value : Int) (spec : Specifier) : Except Err (List Nat) :=
  if spec.type = 99 then
    let spec := { spec with type := 115 }
    let t1 := utf8Append [] (toUInt32n value)
    let temp := if t1.1 then t1.2 else (utf8Append t1.2 0xFFFD).2
    strFormat temp spec
  else
    match (match spec.type with
           | 98 => Except.ok 2
           | 111 => Except.ok 8
           | 0 | 100 | 110 => Except.ok 10
           | 120 | 88 => Except.ok 16
           | 101 | 69 | 102 | 70 | 103 | 71 | 37 =>
             Except.error (Err.logicErr "Not implemented!")
           | _ =>
             Except.error (Err.invalidArg "int64_t::format__(): spec: Invalid format code!")) with
    | .error e => .error e
    | .ok base =>
      if spec.comma then
        .error (.invalidArg "int64_t::format__(): spec: Comma separator (,) is not allowed!")
      else if spec.precision ≠ npos then
        .error (.invalidArg "int64_t::format__(): spec: Precision (.) is not allowed!")
      else if spec.other ≠ [] then
        .error (.invalidArg "int64_t::format__(): spec: Invalid format specification!")
      else
        let result : List Nat :=
          (if value < 0 then [45] else if spec.sign ≠ 0 then [43] else [])
        let result := result ++ (if spec.alter ∧ base ≠ 10 then [48, spec.type] else [])
        let number := (natDigitsLSB base value.natAbs).map (intDigitChar spec.type)
        if spec.width ≠ npos then
          let fill := if spec.fill = [] then [32] else spec.fill
          let align := if spec.align = 0 then 62 else spec.align
          let result :=
            if align = 61 ∧ result.length + number.length < spec.width then
              result ++ (List.replicate (spec.width - result.length - number.length) fill).flatten
            else result
          let result := result ++ number.reverse
          if align = 60 then utf8Ljust result spec.width fill
          else if align = 62 then utf8Rjust result spec.width fill
          else if align = 94 then utf8Center result spec.width fill
          else .ok result
        else .ok (result ++ number.reverse)

/-- `impl::formatter<UTF8, char, int64_t>`: dispatch on the conversion flag.
With no flag the specifier-aware formatter runs; with `a`/`r`/`s` the
decimal rendering (`ascii__` / `repr__` / `str__` all equal `str__` for
integers) is formatted as a string.  The function has no `else` arm for any
other flag value: nothing is appended. -/
def intFormatter (v : Int) : Nat → List Nat → Except Err (List Nat) :=
  fun conv spec =>
    if conv = 0 then intFormat v (specParse spec)
    else if conv = 97 ∨ conv = 114 ∨ conv = 115 then strFormat (intStr v) (specParse spec)
    else .ok []

/-! ### The template scanner (`algorithm::string::format1`, `Char = char`,
`E = UTF8`) -/

/-- The specifier-delimiting loop of `format1`
(`for (; iter < end; iter = next(iter))` with the brace-depth counter):
returns the position where it stopped and the depth at that point (`0`
exactly when it stopped on the matching `}`). -/
def specScanLoop (fuel : Nat) (s : List Nat) (i level : Nat) : Except Err (Nat × Nat) :=
  match fuel with
  | 0 => .error .stuck
  | fuel + 1 =>
    if i < s.length then
      let c := byteAt s i
      if c = 125 then
        let level := level - 1
        if level = 0 then .ok (i, 0)
        else
          let i' := utf8Next s i
          if i' ≤ i then .error .stuck else specScanLoop fuel s i' level
      else
        let level := if c = 123 then level + 1 else level
        let i' := utf8Next s i
        if i' ≤ i then .error .stuck else specScanLoop fuel s i' level
    else .ok (i, level)

/-- The scan loop of `format1`: `i` is `iter`, `frm` the start of the
pending literal run, `pos` the shared automatic/manual position counter
(`0` = unstarted, `npos` = manual mode), `fmts` the per-argument formatter
array, `acc` the result.  The message strings follow the source (with the
quoted brace of the single-brace message elided). -/
def fmt1Loop (fuel : Nat) (s : List Nat) (fmts : List (Nat → List Nat → Except Err (List Nat)))
    (i frm pos : Nat) (acc : List Nat) : Except Err (List Nat) :=
  match fuel with
  | 0 => .error .stuck
  | fuel + 1 =>
    if i < s.length then
      if byteAt s i = 123 then
        let acc := acc ++ sliceN s frm i
        let i := i + 1
        if byteAt s i = 123 then fmt1Loop fuel s fmts (i + 1) i pos acc
        else
          match (if isDigit (byteAt s i) then
                   if pos = 0 then
                     Except.ok (scanDigits (s.length + 1) s (i + 1) (byteAt s i - 48), npos)
                   else if pos ≠ npos then
                     Except.error (Err.invalidArg
                       "format(): format - Switching from automatic to manual indexing")
                   else
                     Except.ok (scanDigits (s.length + 1) s (i + 1) (byteAt s i - 48), npos)
                 else
                   if pos = npos then
                     Except.error (Err.invalidArg
                       "format(): format - Switching from manual to automatic indexing")
                   else Except.ok ((pos, i), pos + 1)) with
          | .error e => .error e
          | .ok ((index, i), pos) =>
            if fmts.length ≤ index then
              .error (.outOfRange "format(): Argument index out of range")
            else if byteAt s i = 91 then
              .error (.logicErr "Not implemented!")
            else
              match (if byteAt s i = 33 then
                       (if isConv (byteAt s (i + 1)) then Except.ok (byteAt s (i + 1), i + 1)
                        else Except.error (Err.invalidArg "format(): format - Invalid conversion"))
                     else Except.ok (0, i)) with
              | .error e => .error e
              | .ok (conv, i) =>
                match (if byteAt s i = 58 then
                         match specScanLoop fuel s (i + 1) 1 with
                         | .error e => Except.error e
                         | .ok (stop, level) =>
                           if 0 < level then
                             Except.error (Err.invalidArg
                               "format(): format - Unterminated format sequence")
                           else Except.ok (sliceN s (i + 1) stop, stop)
                       else Except.ok (([] : List Nat), i)) with
                | .error e => .error e
                | .ok (spec, i) =>
                  if byteAt s i ≠ 125 then
                    .error (.invalidArg "format(): format - Unterminated format sequence")
                  else
                    match (fmts.getD index (fun _ _ => .error .oob)) conv spec with
                    | .error e => .error e
                    | .ok piece => fmt1Loop fuel s fmts (i + 1) (i + 1) pos (acc ++ piece)
      else if byteAt s i = 125 then
        let acc := acc ++ sliceN s frm i
        let i := i + 1
        if byteAt s i ≠ 125 then
          .error (.invalidArg "format(): format - Single closing brace in format string")
        else fmt1Loop fuel s fmts (i + 1) i pos acc
      else
        let i' := utf8Next s i
        if i' ≤ i then .error .stuck
        else fmt1Loop fuel s fmts i' frm pos acc
    else .ok (acc ++ sliceN s frm s.length)

/-- `algorithm::string::format1<.., UTF8>` (as called by `format`, with the
shared position counter starting at `0` and an empty result). -/
def utf8Format1 (s : List Nat) (fmts : List (Nat → List Nat → Except Err (List Nat))) :
    Except Err (List Nat) :=
  fmt1Loop (s.length + 1) s fmts 0 0 0 []

/-- `algorithm::string::format` applied to `int64_t` arguments: the
formatter array holds `impl::formatter<UTF8, char, int64_t>` for each
argument. -/
def utf8FormatInt (tmpl : List Nat) (args : List Int) : Except Err (List Nat) :=
  utf8Format1 tmpl (args.map intFormatter)

/-! ## Claim theorems -/

/-- C1: the `From != To` overload of `transcode` appends every converted
unit to the `input` parameter and never writes the caller-supplied `output`
buffer.  Converting the UTF-8 string `"A"` to UTF-16 under each of the
three error policies leaves `output` empty (`[]`) and grows `input` to
`[65, 65]`; the claim instead requires `output = [65]` and an unchanged
input.  Under the Ignore policy the loop keeps only codepoints with
`cp > 0`, so the successfully decoded codepoint `0` is also dropped:
transcoding `"\0"` appends nothing at all. -/
theorem transcode_targets_input :
    transcodeUTF8toUTF16 [65] [] .Strict = .ok ([65, 65], []) ∧
    transcodeUTF8toUTF16 [65] [] .Replace = .ok ([65, 65], []) ∧
    transcodeUTF8toUTF16 [65] [] .Ignore = .ok ([65, 65], []) ∧
    transcodeUTF8toUTF16 [0] [] .Ignore = .ok ([0], []) := by
  refine ⟨rfl, rfl, rfl, rfl⟩

/-- C2: when `sub` is longer than `self`, `find` returns `0` - the offset
of a non-existent match at the start - instead of the `npos` sentinel the
claim (and the function's own documentation) requires.  Here `s = "a"`,
`sub = "ab"`: no occurrence exists, yet the result is `.ok 0`, and
`0 ≠ npos`. -/
theorem find_zero_for_long_needle :
    utf8Find [97] [97, 98] 0 npos = .ok 0 ∧ (0 : Nat) ≠ npos := by
  exact ⟨rfl, by decide⟩

/-- C3: the `Translation` constructor only `reserve`s its vector and then
assigns through `operator[]` without ever growing it, so the table stays
empty for every input (first conjunct) and lookup returns each codepoint
unchanged: `maketrans("a", "b")` maps `'a'` (97) to itself, not to `'b'`
(98), and a skip-set entry is not mapped to the delete sentinel `-1`. -/
theorem maketrans_table_is_empty :
    (∀ x y z : List Int, translationData x y z = []) ∧
    translationApply (translationData [97] [98] []) 97 = 97 ∧ (97 : Int) ≠ 98 ∧
    translationApply (translationData [] [] [99]) 99 = 99 ∧ (99 : Int) ≠ -1 := by
  have key : ∀ F : List TransNode → Nat → List TransNode,
      (∀ i, F [] i = []) → ∀ L : List Nat, L.foldl F [] = [] := by
    intro F hF L
    induction L with
    | nil => rfl
    | cons a L ih => simp only [List.foldl_cons, hF]; exact ih
  refine ⟨?_, rfl, by decide, rfl, by decide⟩
  intro x y z
  show List.foldl (fun d i => vecSet d (x.length + i) ⟨z.getD i 0, -1⟩)
      (List.foldl (fun d i => vecSet d i ⟨x.getD i 0, y.getD i 0⟩) [] (List.range x.length))
      (List.range z.length) = []
  rw [key _ (fun i => by simp [vecSet]) (List.range x.length)]
  exact key _ (fun i => by simp [vecSet]) (List.range z.length)

/-- C6: formatting `42` with the template `"{:=+06}"` yields exactly
`"+00042"`, and with `"{:😀^+06}"` (fill = the four-byte codepoint U+1F600,
center alignment, width 6) exactly `"😀+42😀😀"`: the width is counted in
codepoints of the output encoding and the multi-byte fill is honoured.
The byte lists are the UTF-8 units of the template and of the outputs. -/
theorem format_int_concrete :
    utf8FormatInt [123, 58, 61, 43, 48, 54, 125] [42] = .ok [43, 48, 48, 48, 52, 50] ∧
    utf8FormatInt [123, 58, 240, 159, 152, 128, 94, 43, 48, 54, 125] [42] =
      .ok [240, 159, 152, 128, 43, 52, 50, 240, 159, 152, 128, 240, 159, 152, 128] := by
  exact ⟨rfl, rfl⟩

/-- C10: on the input `" a"` (a string starting with whitespace) the
whitespace form of `rsplit` runs its backward whitespace-skipping loop
below the start of the view: the embedded algorithm, whose every read is
bounds-checked, reaches the out-of-bounds read at index `-1`. -/
theorem rsplit_ws_reads_before_view :
    utf8RsplitWs [32, 97] npos = .error .oob ∧
    utf8RsplitWs [32] npos = .error .oob := by
  exact ⟨rfl, rfl⟩

/-! ### Helper lemmas for the UTF-8 decoder -/

/-- A continuation byte `0x80 + t` (`t < 64`) satisfies the `tail` test. -/
theorem utf8IsTail_cont : ∀ t, t < 64 → utf8IsTail (128 + t) = true := by decide

/-- Low 6 bits of a continuation byte. -/
theorem and63_cont : ∀ t, t < 64 → (128 + t) &&& 63 = t := by decide

/-- Low 4 bits of a 3-unit lead byte. -/
theorem and15_lead3 : ∀ a, a < 16 → (224 + a) &&& 15 = a := by decide

/-- Low 3 bits of a 4-unit lead byte. -/
theorem and7_lead4 : ∀ a, a < 8 → (240 + a) &&& 7 = a := by decide

/-- The surrogate-range mask test, on the surrogate block split into its
high and low digits (keeping each bounded check small). -/
theorem surrogate_mask_ab :
    ∀ a, a < 32 → ∀ b, b < 64 → (55296 + (a * 64 + b)) &&& 63488 = 55296 := by decide

/-- The surrogate-range mask test holds on the whole surrogate block. -/
theorem surrogate_mask (t : Nat) (h : t < 2048) : (55296 + t) &&& 63488 = 55296 := by
  have h2 := surrogate_mask_ab (t / 64) (by omega) (t % 64) (by omega)
  rwa [show t / 64 * 64 + t % 64 = t from by omega] at h2

/-- Recombining disjoint shifted fields: `x <<< k ||| y` is plain addition
when `y` fits in the low `k` bits. -/
theorem lor_shift_add (x y k : Nat) (h : y < 2 ^ k) : (x <<< k) ||| y = x * 2 ^ k + y := by
  rw [Nat.shiftLeft_eq, Nat.mul_comm x (2 ^ k), ← Nat.mul_add_lt_is_or h x,
    Nat.mul_comm (2 ^ k) x]

/-- Evaluation of `utf8DerefAt` on a position holding a (possibly overlong
or out-of-range) three-unit sequence. -/
theorem utf8DerefAt_head3 (s : List Nat) (p a y z : Nat)
    (ha : a < 16) (hy : y < 64) (hz : z < 64)
    (hb0 : byteAt s p = 224 + a) (hb1 : byteAt s (p + 1) = 128 + y)
    (hb2 : byteAt s (p + 2) = 128 + z) :
    utf8DerefAt s p =
      (if a * 4096 + y * 64 + z < 2048 ∨ (a * 4096 + y * 64 + z) &&& 63488 = 55296
       then (-1 : Int) else ((a * 4096 + y * 64 + z : Nat) : Int)) := by
  have c1 : utf8Ascii (224 + a) = false := by simp [utf8Ascii]; try omega
  have c2 : utf8IsHead (224 + a) = true := by simp [utf8IsHead]; try omega
  have c3 : utf8IsHead2 (224 + a) = false := by simp [utf8IsHead2]; try omega
  have c4 : utf8IsHead3 (224 + a) = true := by simp [utf8IsHead3]; try omega
  have t1 := utf8IsTail_cont y hy
  have t2 := utf8IsTail_cont z hz
  have m0 := and15_lead3 a ha
  have m1 := and63_cont y hy
  have m2 := and63_cont z hz
  have e1 : (a <<< 12) ||| (y <<< 6) = a * 4096 + y * 64 := by
    have hy' : y <<< 6 < 2 ^ 12 := by rw [Nat.shiftLeft_eq]; omega
    rw [lor_shift_add a (y <<< 6) 12 hy', Nat.shiftLeft_eq]
    try norm_num
  have e2 : (a * 4096 + y * 64) ||| z = a * 4096 + y * 64 + z := by
    have h1 : a * 4096 + y * 64 = 2 ^ 6 * (a * 64 + y) := by ring
    have h2 : z < 2 ^ 6 := by omega
    rw [h1, ← Nat.mul_add_lt_is_or h2 (a * 64 + y)]
    try ring
  simp only [utf8DerefAt, hb0, hb1, hb2, c1, c2, c3, c4, t1, t2, m0, m1, m2,
    Bool.not_true, Bool.not_false, Bool.false_and, Bool.and_false, Bool.true_and,
    if_false, if_true, e1, e2]
  try simp

/-- Evaluation of `utf8DerefAt` on a position holding a (possibly overlong
or out-of-range) four-unit sequence. -/
theorem utf8DerefAt_head4 (s : List Nat) (p a y z w : Nat)
    (ha : a < 8) (hy : y < 64) (hz : z < 64) (hw : w < 64)
    (hb0 : byteAt s p = 240 + a) (hb1 : byteAt s (p + 1) = 128 + y)
    (hb2 : byteAt s (p + 2) = 128 + z) (hb3 : byteAt s (p + 3) = 128 + w) :
    utf8DerefAt s p =
      (if a * 262144 + y * 4096 + z * 64 + w < 65536 ∨ 1114111 < a * 262144 + y * 4096 + z * 64 + w
       then (-1 : Int) else ((a * 262144 + y * 4096 + z * 64 + w : Nat) : Int)) := by
  have c1 : utf8Ascii (240 + a) = false := by simp [utf8Ascii]; try omega
  have c2 : utf8IsHead (240 + a) = true := by simp [utf8IsHead]; try omega
  have c3 : utf8IsHead2 (240 + a) = false := by simp [utf8IsHead2]; try omega
  have c4 : utf8IsHead3 (240 + a) = false := by simp [utf8IsHead3]; try omega
  have c5 : utf8IsHead4 (240 + a) = true := by simp [utf8IsHead4]; try omega
  have t1 := utf8IsTail_cont y hy
  have t2 := utf8IsTail_cont z hz
  have t3 := utf8IsTail_cont w hw
  have m0 := and7_lead4 a ha
  have m1 := and63_cont y hy
  have m2 := and63_cont z hz
  have m3 := and63_cont w hw
  have e1 : (a <<< 18) ||| (y <<< 12) = a * 262144 + y * 4096 := by
    have hy' : y <<< 12 < 2 ^ 18 := by rw [Nat.shiftLeft_eq]; omega
    rw [lor_shift_add a (y <<< 12) 18 hy', Nat.shiftLeft_eq]
    try norm_num
  have e2 : (a * 262144 + y * 4096) ||| (z <<< 6) = a * 262144 + y * 4096 + z * 64 := by
    have h1 : a * 262144 + y * 4096 = 2 ^ 12 * (a * 64 + y) := by ring
    have h2 : z <<< 6 < 2 ^ 12 := by rw [Nat.shiftLeft_eq]; omega
    rw [h1, ← Nat.mul_add_lt_is_or h2 (a * 64 + y), Nat.shiftLeft_eq]
    try ring
  have e3 : (a * 262144 + y * 4096 + z * 64) ||| w = a * 262144 + y * 4096 + z * 64 + w := by
    have h1 : a * 262144 + y * 4096 + z * 64 = 2 ^ 6 * (a * 4096 + y * 64 + z) := by ring
    have h2 : w < 2 ^ 6 := by omega
    rw [h1, ← Nat.mul_add_lt_is_or h2 (a * 4096 + y * 64 + z)]
    try ring
  simp only [utf8DerefAt, hb0, hb1, hb2, hb3, c1, c2, c3, c4, c5, t1, t2, t3,
    m0, m1, m2, m3, Bool.not_true, Bool.not_false, Bool.false_and, Bool.and_false,
    Bool.true_and, if_false, if_true, e1, e2, e3]
  try simp

/-- C4 (counterexample): the claim fails for UTF-16 and UTF-32.
Dereferencing the UTF-16 iterator at an unpaired surrogate half
(`[0xD800, 'A']`) returns the non-negative value `0xD800` itself, and the
UTF-32 iterator (whose validity test collapses to `*ptr & 1` by C++
operator precedence) returns the odd surrogate half `0xD801` unchanged -
neither is a negative error value. -/
theorem surrogate_half_decoded_nonneg :
    utf16Deref [55296, 65] 0 = 55296 ∧ ¬ utf16Deref [55296, 65] 0 < 0 ∧
    utf32Deref [55297] 0 = 55297 ∧ ¬ utf32Deref [55297] 0 < 0 := by
  exact ⟨rfl, by decide, rfl, by decide⟩

/-- C4 (amended): for UTF-8 the claim holds.  At a position holding a
two-unit overlong encoding, a three-unit overlong encoding, a three-unit
encoding of a surrogate half, or a four-unit encoding that is overlong or
above 0x10FFFF, `operator*` returns a negative error value. -/
theorem utf8_deref_rejects_invalid :
    (∀ s p cp, cp < 128 → byteAt s p = 192 + cp / 64 → byteAt s (p + 1) = 128 + cp % 64 →
       utf8DerefAt s p < 0) ∧
    (∀ s p cp, cp < 2048 → byteAt s p = 224 + cp / 4096 →
       byteAt s (p + 1) = 128 + cp / 64 % 64 → byteAt s (p + 2) = 128 + cp % 64 →
       utf8DerefAt s p < 0) ∧
    (∀ s p cp, 55296 ≤ cp → cp < 57344 → byteAt s p = 224 + cp / 4096 →
       byteAt s (p + 1) = 128 + cp / 64 % 64 → byteAt s (p + 2) = 128 + cp % 64 →
       utf8DerefAt s p < 0) ∧
    (∀ s p cp, cp < 2097152 → (cp < 65536 ∨ 1114111 < cp) →
       byteAt s p = 240 + cp / 262144 → byteAt s (p + 1) = 128 + cp / 4096 % 64 →
       byteAt s (p + 2) = 128 + cp / 64 % 64 → byteAt s (p + 3) = 128 + cp % 64 →
       utf8DerefAt s p < 0) := by
  refine ⟨?_, ?_, ?_, ?_⟩
  · -- two-unit overlong: the lead byte is 0xC0 (not a head: `ch > 0xC0`
    -- fails, the raw byte is negated) or 0xC1 (decoded, then rejected by
    -- the `codepoint < 0x80` check)
    intro s p cp hcp hb0 hb1
    have ha : cp / 64 < 2 := by omega
    interval_cases h : cp / 64
    · have c1 : utf8Ascii (192 : Nat) = false := by decide
      have c2 : utf8IsHead (192 : Nat) = false := by decide
      simp only [utf8DerefAt, hb0, c1, c2, Bool.false_eq_true, not_false_eq_true,
        if_true, if_false]
      simp
    · have hy : cp % 64 < 64 := by omega
      have t1 := utf8IsTail_cont _ hy
      have e1 : ((193 : Nat) &&& 31) <<< 6 ||| (128 + cp % 64 &&& 63) = 64 + cp % 64 := by
        rw [and63_cont _ hy, show ((193 : Nat) &&& 31) = 1 from by decide,
          lor_shift_add 1 (cp % 64) 6 (by omega)]
        omega
      simp only [utf8DerefAt, hb0, hb1, t1, e1]
      have : (64 + cp % 64) < 128 := by omega
      simp [utf8Ascii, utf8IsHead, utf8IsHead2, this]
  · -- three-unit overlong
    intro s p cp hcp hb0 hb1 hb2
    rw [utf8DerefAt_head3 s p (cp / 4096) (cp / 64 % 64) (cp % 64) (by omega) (by omega)
      (by omega) hb0 hb1 hb2]
    rw [if_pos (Or.inl (by omega))]
    decide
  · -- three-unit surrogate half
    intro s p cp hlo hhi hb0 hb1 hb2
    rw [utf8DerefAt_head3 s p (cp / 4096) (cp / 64 % 64) (cp % 64) (by omega) (by omega)
      (by omega) hb0 hb1 hb2]
    have hval : cp / 4096 * 4096 + cp / 64 % 64 * 64 + cp % 64 = cp := by omega
    rw [hval]
    have hm : cp &&& 63488 = 55296 := by
      have h2 := surrogate_mask (cp - 55296) (by omega)
      rwa [show 55296 + (cp - 55296) = cp from by omega] at h2
    rw [if_pos (Or.inr hm)]
    decide
  · -- four-unit overlong or above 0x10FFFF
    intro s p cp hcp hbad hb0 hb1 hb2 hb3
    rw [utf8DerefAt_head4 s p (cp / 262144) (cp / 4096 % 64) (cp / 64 % 64) (cp % 64)
      (by omega) (by omega) (by omega) (by omega) hb0 hb1 hb2 hb3]
    have hval : cp / 262144 * 262144 + cp / 4096 % 64 * 4096 + cp / 64 % 64 * 64 + cp % 64
        = cp := by omega
    rw [hval, if_pos hbad]
    decide

/-- C4 (witness): the amended theorem applied to the three-unit encoding
`ED A0 80` of the surrogate half U+D800. -/
theorem utf8_deref_rejects_invalid_witness :
    (55296 ≤ 55296 ∧ 55296 < 57344 ∧
      byteAt [237, 160, 128] 0 = 224 + 55296 / 4096 ∧
      byteAt [237, 160, 128] 1 = 128 + 55296 / 64 % 64 ∧
      byteAt [237, 160, 128] 2 = 128 + 55296 % 64) ∧
    utf8DerefAt [237, 160, 128] 0 < 0 := by
  refine ⟨by decide, ?_⟩
  exact utf8_deref_rejects_invalid.2.2.1 [237, 160, 128] 0 55296 (by decide) (by decide)
    (by decide) (by decide) (by decide)

/-- C8 (amended): whenever the codepoint length of `s` is defined and
`w` does not exceed it, and the fill decodes to exactly one codepoint,
`center`, `ljust` and `rjust` return `s` unchanged; and whenever the
codepoint length of the fill is defined and differs from one, each call
fails with its argument error.  (The amendment: a fill on which the UTF-8
iterator sticks, such as a lone `0xE0` byte, makes the call loop forever
instead of failing - see the counterexample.) -/
theorem justify_noop_and_fill_error :
    (∀ s w f L, utf8Length s = .ok L → w ≤ L → utf8Length f = .ok 1 →
       utf8Center s w f = .ok s ∧ utf8Ljust s w f = .ok s ∧ utf8Rjust s w f = .ok s) ∧
    (∀ s w f F, utf8Length f = .ok F → F ≠ 1 →
       utf8Center s w f = .error (.invalidArg "center(): fillchar") ∧
       utf8Ljust s w f = .error (.invalidArg "ljust(): fillchar") ∧
       utf8Rjust s w f = .error (.invalidArg "rjust(): fillchar")) := by
  constructor
  · intro s w f L hs hw hf
    refine ⟨?_, ?_, ?_⟩ <;>
    · simp only [utf8Center, utf8Ljust, utf8Rjust, hf, hs]
      rcases eq_or_lt_of_le hw with rfl | hlt
      · simp
      · simp [hlt]
  · intro s w f F hf hne
    refine ⟨?_, ?_, ?_⟩ <;>
    · simp only [utf8Center, utf8Ljust, utf8Rjust, hf]
      simp [hne]

/-- C8 (counterexample): the fill `[0xE0]` - a lone three-unit lead byte -
does not decode to exactly one codepoint, yet the call does not fail with
an argument error: computing the fill length sticks the iterator, so the
call never returns (`Err.stuck`), refuting the claim as stated. -/
theorem justify_malformed_fill_hangs :
    utf8Center [97] 5 [224] = .error .stuck ∧
    Err.stuck ≠ Err.invalidArg "center(): fillchar" := by
  exact ⟨rfl, by decide⟩

/-- C8 (witness): the amended theorem at `s = "ab"`, `w = 2`, fill `"-"`,
and at the two-codepoint fill `"--"` for the error half. -/
theorem justify_noop_and_fill_error_witness :
    ((utf8Length [97, 98] = .ok 2 ∧ 2 ≤ 2 ∧ utf8Length [45] = .ok 1) ∧
      utf8Center [97, 98] 2 [45] = .ok [97, 98] ∧
      utf8Ljust [97, 98] 2 [45] = .ok [97, 98] ∧
      utf8Rjust [97, 98] 2 [45] = .ok [97, 98]) ∧
    ((utf8Length [45, 45] = .ok 2 ∧ (2 : Nat) ≠ 1) ∧
      utf8Center [97] 9 [45, 45] = .error (.invalidArg "center(): fillchar")) := by
  refine ⟨⟨⟨rfl, by decide, rfl⟩, ?_⟩, ⟨⟨rfl, by decide⟩, ?_⟩⟩
  · exact justify_noop_and_fill_error.1 [97, 98] 2 [45] 2 rfl (by decide) rfl
  · exact (justify_noop_and_fill_error.2 [97] 9 [45, 45] 2 rfl (by decide)).1

/-- C9: whenever the `quote` scan dereferences a null character, the
emission for that single character is `\` `0` immediately followed by
`\` `a` (the `case 0` arm has no `continue` and falls into the `case 7`
arm), after which the scan continues at the next unit; and the full
pipeline double-escapes an embedded null: `quote("a\0b")` is the unit
sequence of `"a\0\ab"` in quotes. -/
theorem quote_null_double_escape :
    (∀ s p acc fuel, p < s.length → byteAt s p = 0 →
       quoteLoop (fuel + 1) s p acc = quoteLoop fuel s (p + 1) (acc ++ [92, 48, 92, 97])) ∧
    utf8Quote [97, 0, 98] = .ok [34, 97, 92, 48, 92, 97, 98, 34] := by
  constructor
  · intro s p acc fuel hp hb
    have hderef : utf8DerefAt s p = 0 := by simp [utf8DerefAt, hb, utf8Ascii]
    have hnext : utf8Next s p = p + 1 := by simp [utf8Next, hb, utf8IsHead]
    conv_lhs => rw [quoteLoop]
    simp [hp, hderef, hnext, quoteEmit, toUInt32n]
  · rfl

/-- C9 (witness): the loop lemma applied at the one-character string
`"\0"`. -/
theorem quote_null_double_escape_witness :
    ((0 : Nat) < 1 ∧ byteAt [0] 0 = 0) ∧
    quoteLoop 2 [0] 0 [] = quoteLoop 1 [0] 1 [92, 48, 92, 97] := by
  refine ⟨⟨by decide, rfl⟩, ?_⟩
  exact quote_null_double_escape.1 [0] 0 [] 1 (by decide) rfl

/-- C7 (amended): the indexing rule of the template scanner.  (a) Once the
position counter is the manual sentinel (`npos`, set by any explicit digit
index), a field with an automatic (empty) index raises the indexing-mode
argument error; (b) once the counter has been advanced by an automatic
index (it is neither `0` nor the sentinel), a field with an explicit digit
index raises the converse indexing-mode error; (c) in particular,
formatting `"{0}{}"` fails with the indexing-mode error for every argument
list holding at least one argument.  (With zero arguments the claim fails:
the out-of-range check of the first field fires first - see the
counterexample.) -/
theorem format_index_mode_error :
    (∀ fuel s fmts i frm acc, i < s.length → byteAt s i = 123 →
       byteAt s (i + 1) ≠ 123 → isDigit (byteAt s (i + 1)) = false →
       fmt1Loop (fuel + 1) s fmts i frm npos acc =
         .error (.invalidArg "format(): format - Switching from manual to automatic indexing")) ∧
    (∀ fuel s fmts i frm pos acc, i < s.length → byteAt s i = 123 →
       byteAt s (i + 1) ≠ 123 → isDigit (byteAt s (i + 1)) = true →
       pos ≠ 0 → pos ≠ npos →
       fmt1Loop (fuel + 1) s fmts i frm pos acc =
         .error (.invalidArg "format(): format - Switching from automatic to manual indexing")) ∧
    (∀ (a : Int) (args : List Int),
       utf8FormatInt [123, 48, 125, 123, 125] (a :: args) =
         .error (.invalidArg "format(): format - Switching from manual to automatic indexing")) := by
  refine ⟨?_, ?_, fun a args => rfl⟩
  · intro fuel s fmts i frm acc hlt hb hb2 hd
    conv_lhs => rw [fmt1Loop]
    simp [hlt, hb, hb2, hd]
  · intro fuel s fmts i frm pos acc hlt hb hb2 hd hp0 hpn
    conv_lhs => rw [fmt1Loop]
    simp [hlt, hb, hb2, hd, hp0, hpn]

/-- C7 (counterexample): with the empty argument list, `"{0}{}"` fails with
the out-of-range error of the first field, not with an indexing-mode
error - the claim's "for any arguments" is refuted at `args = []`. -/
theorem format_mixed_empty_args_range_error :
    utf8FormatInt [123, 48, 125, 123, 125] [] =
      .error (.outOfRange "format(): Argument index out of range") ∧
    Err.outOfRange "format(): Argument index out of range" ≠
      Err.invalidArg "format(): format - Switching from manual to automatic indexing" := by
  exact ⟨rfl, by decide⟩

/-- C7 (witness): part (a) applied to the scanner state that `"{0}{}"`
reaches after its first field (position 3, manual mode), and part (c) at a
concrete one-argument list. -/
theorem format_index_mode_error_witness :
    ((3 : Nat) < 5 ∧ byteAt [123, 48, 125, 123, 125] 3 = 123 ∧
      byteAt [123, 48, 125, 123, 125] 4 ≠ 123 ∧
      isDigit (byteAt [123, 48, 125, 123, 125] 4) = false) ∧
    fmt1Loop 3 [123, 48, 125, 123, 125] [] 3 3 npos [] =
      .error (.invalidArg "format(): format - Switching from manual to automatic indexing") ∧
    utf8FormatInt [123, 48, 125, 123, 125] [7] =
      .error (.invalidArg "format(): format - Switching from manual to automatic indexing") := by
  refine ⟨⟨by decide, rfl, by decide, rfl⟩, ?_, ?_⟩
  · exact format_index_mode_error.1 2 [123, 48, 125, 123, 125] [] 3 3 []
      (by decide) rfl (by decide) rfl
  · exact format_index_mode_error.2.2 7 []

/-! ### Helper lemmas for the split round trip -/

/-- A position whose byte passes the `tail` test lies inside the string
(past the end `byteAt` reads the null terminator, which is not a tail). -/
theorem lt_length_of_tail {s : List Nat} {q : Nat} (h : utf8IsTail (byteAt s q) = true) :
    q < s.length := by
  by_contra hq
  push_neg at hq
  rw [byteAt, List.getD_eq_default _ _ hq] at h
  exact absurd h (by decide)

/-- `operator++` never moves past the null terminator: from a position
inside the string it reaches at most `s.length`. -/
theorem utf8Next_le (s : List Nat) (p : Nat) (hp : p < s.length) :
    utf8Next s p ≤ s.length := by
  simp only [utf8Next]
  split_ifs <;>
    first
      | omega
      | (rename_i ht
         have := lt_length_of_tail ht
         omega)
      | (rename_i ht
         rw [Bool.and_eq_true] at ht
         have := lt_length_of_tail ht.2
         omega)

/-- `joinSep` on a list with at least two items. -/
theorem joinSep_cons (sep x : List Nat) (ps : List (List Nat)) (h : ps ≠ []) :
    joinSep sep (x :: ps) = x ++ sep ++ joinSep sep ps := by
  cases ps with
  | nil => exact absurd rfl h
  | cons y t => rfl

/-- The final piece of every split: the view `[prev, size)` is the suffix
from `prev`. -/
theorem sliceN_to_end (s : List Nat) (prev : Nat) :
    sliceN s prev s.length = s.drop prev := by
  rw [sliceN, ← List.length_drop, List.take_length]

/-- Invariant of the `split(sep)` scan loop: with a separator no longer
than the string, on every input where `operator++` advances, the loop
terminates with a non-empty piece list that joins back (with `sep` between
pieces) to the suffix of the string from `prev` - for every `maxsplit`. -/
theorem splitLoop_join (s sep : List Nat) (hmn : sep.length ≤ s.length)
    (hm : 1 ≤ sep.length)
    (hadv : ∀ p, p < s.length → p < utf8Next s p) :
    ∀ fuel i prev ms, prev ≤ i → i ≤ s.length → s.length + 1 - i ≤ fuel →
      ∃ ps, utf8SplitSepLoop fuel s sep ms i prev = .ok ps ∧ ps ≠ [] ∧
        joinSep sep ps = s.drop prev := by
  intro fuel
  induction fuel with
  | zero =>
    intro i prev ms _ h2 h3
    omega
  | succ fuel ih =>
    intro i prev ms hpi hile hfuel
    rw [utf8SplitSepLoop]
    by_cases hg : ms ≠ 0 ∧ i < s.length - sep.length + 1
    · rw [if_pos hg]
      by_cases hmatch : (s.drop i).take sep.length = sep
      · rw [if_pos hmatch]
        have hiN : i + sep.length ≤ s.length := by omega
        obtain ⟨ps, hps, hne, hjoin⟩ :=
          ih (i + sep.length) (i + sep.length) (ms - 1) le_rfl hiN (by omega)
        rw [hps]
        refine ⟨sliceN s prev i :: ps, rfl, by simp, ?_⟩
        rw [joinSep_cons _ _ _ hne, hjoin]
        have h2 : (s.drop prev).drop (i - prev) = s.drop i := by
          rw [List.drop_drop, show prev + (i - prev) = i from by omega]
        have h3 : s.drop i = sep ++ s.drop (i + sep.length) := by
          have h4 := List.take_append_drop sep.length (s.drop i)
          rw [hmatch, List.drop_drop] at h4
          exact h4.symm
        conv_rhs => rw [← List.take_append_drop (i - prev) (s.drop prev), h2, h3]
        rw [sliceN, List.append_assoc]
      · rw [if_neg hmatch]
        have hiLt : i < s.length := by omega
        have hadvi := hadv i hiLt
        have hle := utf8Next_le s i hiLt
        rw [if_neg (by omega : ¬ utf8Next s i ≤ i)]
        exact ih (utf8Next s i) prev ms (by omega) hle (by omega)
    · rw [if_neg hg]
      exact ⟨[sliceN s prev s.length], rfl, by simp, by simp [joinSep, sliceN_to_end]⟩

/-- C5 (amended): for every separator `sep ≠ ""` and every string `s` on
which the UTF-8 iterator advances at every position (true in particular of
every well-formed UTF-8 string), joining the pieces of
`split(sep, maxsplit)` with `sep` reconstructs `s` exactly - for every
`maxsplit`, hence in particular for the unbounded one. -/
theorem split_join_roundtrip (s sep : List Nat) (maxsplit : Nat) (hsep : sep ≠ [])
    (hadv : ∀ p, p < s.length → p < utf8Next s p) :
    (utf8SplitSep s sep maxsplit).map (joinSep sep) = .ok s := by
  unfold utf8SplitSep
  rw [if_neg (by simpa using hsep)]
  by_cases hnm : s.length < sep.length
  · simp only [if_pos hnm]
    rw [utf8SplitSepLoop]
    simp [joinSep, sliceN_to_end, Except.map]
  · push_neg at hnm
    simp only [if_neg (by omega : ¬ s.length < sep.length)]
    obtain ⟨ps, hps, hne, hjoin⟩ :=
      splitLoop_join s sep hnm (by simpa [Nat.succ_le_iff, List.length_pos] using hsep) hadv
        (s.length + 1) 0 0 maxsplit le_rfl (by omega) (by omega)
    rw [hps]
    simpa [Except.map] using hjoin

/-- C5 (counterexample): the claim as stated fails.  On the string
`E0 61 21` (`"\xE0a!"`, a malformed lead byte followed by a non-tail) with
separator `"!"`, the scan cannot advance past position 0: the C++ loop
never terminates (`Err.stuck` in the embedding), so the split produces no
list at all and no round trip happens. -/
theorem split_sticks_on_malformed :
    utf8SplitSep [224, 97, 33] [33] npos = .error .stuck ∧
    (utf8SplitSep [224, 97, 33] [33] npos).map (joinSep [33]) ≠ .ok [224, 97, 33] := by
  constructor
  · rfl
  · intro h
    exact Except.noConfusion h

/-- C5 (witness): the round trip at `s = "a:b"`, `sep = ":"` with the
unbounded `maxsplit`. -/
theorem split_join_roundtrip_witness :
    (([58] : List Nat) ≠ [] ∧
      ∀ p, p < ([97, 58, 98] : List Nat).length → p < utf8Next [97, 58, 98] p) ∧
    (utf8SplitSep [97, 58, 98] [58] npos).map (joinSep [58]) = .ok [97, 58, 98] := by
  refine ⟨⟨by decide, by decide⟩, ?_⟩
  exact split_join_roundtrip [97, 58, 98] [58] npos (by decide) (by decide)
